import Mathlib

/-!
# Verification of `HTMLCountryRenderer` (packages/malloy-render/src/html/country_shape_map.ts)

A shallow embedding of the country-shape-map renderer: the row value mapper
(`getDataValue`), the encoding-type classifier (`getDataType`), the field role
selectors (`getRegionField` / `getColorField`), and the spec assembler
(`getVegaLiteSpec`), together with theorems about row filtering, type
classification, error behaviour and spec shape.

Modelling conventions:
* TypeScript `undefined` is `Option.none`; a thrown exception is
  `Except.error`.
* Object identity (`===` on `Field` objects) is modelled by giving each
  `Field` a numeric identity `fid`, so that two distinct field objects with
  equal metadata stay distinguishable.
* The static assets (`COUNTRY_CODES`, the world-atlas dataset) and the
  external helpers (`formatTitle`, `getColorScale`, `getSize`) live outside
  this file's source; they are parameters of the embedded functions.
-/

namespace ShapeMap

/-- Semantic kind of a field, as exposed by the `Field` capability surface
(`isDate`, `isTimestamp`, `isString`, `isNumber`, `isAtomicField`).
`otherAtomic` is an atomic field of none of the four scalar kinds;
`nonAtomic` is a structural (explore) field, for which `isAtomicField()`
is false. -/
inductive FieldKind where
  | string
  | number
  | date
  | timestamp
  | otherAtomic
  | nonAtomic
deriving DecidableEq, Repr

/-- A result field: name, semantic kind, and a numeric identity `fid`
standing for JavaScript object identity (the code compares fields with
`===`). -/
structure Field where
  fid : Nat
  name : String
  kind : FieldKind
deriving DecidableEq, Repr

/-- `field.isAtomicField()`. -/
def Field.isAtomicField (f : Field) : Bool :=
  f.kind != FieldKind.nonAtomic

/-- The result's structural context: its ordered list of top-level
(intrinsic) fields. Stands for the `Explore` reached via
`data.field` / `field.parentExplore`. -/
structure Explore where
  intrinsicFields : List Field
deriving DecidableEq, Repr

/-- `getRegionField(explore)`: `explore.intrinsicFields[0]`
(`none` models the JavaScript `undefined` when the list is too short). -/
def getRegionField (e : Explore) : Option Field :=
  e.intrinsicFields[0]?

/-- `getColorField(explore)`: `explore.intrinsicFields[1]`. -/
def getColorField (e : Explore) : Option Field :=
  e.intrinsicFields[1]?

/-- A scalar produced by the row mapper: a JavaScript number or string. -/
inductive ScalarValue where
  | num (n : Int)
  | str (s : String)
deriving DecidableEq, Repr

/-- A data cell as probed by the capability predicates of `DataColumn`:
`isNumber`, `isString`, `isNull`; `arr` covers every remaining kind
(array / struct cell), the branch that throws in `getDataValue`. -/
inductive CellValue where
  | num (n : Int)
  | str (s : String)
  | null
  | arr
deriving DecidableEq, Repr

/-- The renderer's failure modes. The first three are the thrown `Error`s of
the source; `undefinedAccess` is the runtime `TypeError` raised when a
property is read from an `undefined` field (e.g. `colorField.name` with
fewer than two fields). -/
inductive RenderError where
  | invalidFieldType
  | nullStruct
  | invalidData
  | undefinedAccess
deriving DecidableEq, Repr

/-- Vega-Lite encoding types used by the classifier. -/
inductive EncodingType where
  | ordinal
  | quantitative
  | nominal
deriving DecidableEq, Repr

/-- `getDataValue(data)`: number passes through; a string on the region
field is looked up in the country-code table (`none` when unresolved);
any other string passes through; null becomes `undefined`; anything else
throws `Invalid field type for shape map.`. `codes` is the
`COUNTRY_CODES` table; `explore` is `data.field.parentExplore`; `f` is
`data.field`. -/
def getDataValue (codes : String → Option Int) (explore : Explore)
    (f : Field) (v : CellValue) : Except RenderError (Option ScalarValue) :=
  match v with
  | CellValue.num n => Except.ok (some (ScalarValue.num n))
  | CellValue.str s =>
      if getRegionField explore = some f then
        match codes s with
        | none => Except.ok none
        | some id => Except.ok (some (ScalarValue.num id))
      else
        Except.ok (some (ScalarValue.str s))
  | CellValue.null => Except.ok none
  | CellValue.arr => Except.error RenderError.invalidFieldType

/-- `getDataType(field)`: date/timestamp are `nominal`; a string field is
`quantitative` when it is the region field and `nominal` otherwise; a
number field is `quantitative`; every other field kind throws
`Invalid field type for shape map.`. `explore` is `field.parentExplore`. -/
def getDataType (explore : Explore) (f : Field) :
    Except RenderError EncodingType :=
  if f.isAtomicField then
    if f.kind = FieldKind.date ∨ f.kind = FieldKind.timestamp then
      Except.ok EncodingType.nominal
    else if f.kind = FieldKind.string then
      if getRegionField explore = some f then
        Except.ok EncodingType.quantitative
      else
        Except.ok EncodingType.nominal
    else if f.kind = FieldKind.number then
      Except.ok EncodingType.quantitative
    else
      Except.error RenderError.invalidFieldType
  else
    Except.error RenderError.invalidFieldType

/-- One source row: its cells in field order, each cell paired with its
originating field. -/
abbrev Row := List (Field × CellValue)

/-- A mapped row: the flat label→value record built by the row mapper.
`none` stores JavaScript `undefined`. -/
abbrev MappedRow := List (String × Option ScalarValue)

/-- Reading `row[key]` from a mapped row: JavaScript object semantics, the
last write to a key wins, and both a missing key and a stored `undefined`
read back as `undefined` (`none`). -/
def rowGet (mr : MappedRow) (key : String) : Option ScalarValue :=
  match mr.reverse.find? (fun p => p.fst == key) with
  | some p => p.snd
  | none => none

/-- Modelled from the spec: `mapData`'s per-row record construction, from
`HTMLChartRenderer` (chart.ts, not part of the provided source). §4.4:
"converts each result row into a flat label→value record" by applying the
per-cell value mapping (`getDataValue`) to every cell; a cell failure
aborts (the exception propagates). -/
def mapRow (codes : String → Option Int) (explore : Explore) :
    Row → Except RenderError MappedRow
  | [] => Except.ok []
  | p :: rest =>
      match getDataValue codes explore p.1 p.2, mapRow codes explore rest with
      | Except.error e, _ => Except.error e
      | Except.ok _, Except.error e => Except.error e
      | Except.ok mv, Except.ok mrest => Except.ok ((p.1.name, mv) :: mrest)

/-- Modelled from the spec: `mapData`, from `HTMLChartRenderer` (chart.ts,
not part of the provided source). §4.4: builds one `MappedRow` per source
row, in order; the first cell failure aborts the whole call. -/
def mapData (codes : String → Option Int) (explore : Explore) :
    List Row → Except RenderError (List MappedRow)
  | [] => Except.ok []
  | r :: rs =>
      match mapRow codes explore r, mapData codes explore rs with
      | Except.error e, _ => Except.error e
      | Except.ok _, Except.error e => Except.error e
      | Except.ok mr, Except.ok rest => Except.ok (mr :: rest)

/-- The top-level `DataColumn` handed to `getVegaLiteSpec`: null, an array
of rows, or some other (non-null, non-array) value. -/
inductive TopValue where
  | null
  | rows (rs : List Row)
  | other
deriving DecidableEq, Repr

/-- The `{width, height}` block spread from `this.getSize()` (external
helper). -/
structure SizeBlock where
  width : Int
  height : Int
deriving DecidableEq, Repr

/-- The color encoding definition built for the data overlay layer:
`{field, type, axis: {title}, scale}`. The scale is the opaque result of
the external `getColorScale` helper, represented as a string token. -/
structure ColorDef where
  field : String
  type : Option EncodingType
  axisTitle : String
  scale : String
deriving DecidableEq, Repr

/-- The lookup ("join") transform of the data overlay layer:
`{lookup, from: {data: world..., key}, as}`. -/
structure LookupTransform where
  lookup : String
  fromData : List Int
  key : String
  asName : String
deriving DecidableEq, Repr

/-- One visual layer of the produced spec, mirroring the three layer
literals of the source: the sphere background, the world-outline base
layer, and the data overlay with its lookup transform. The world-atlas
dataset is carried as its list of feature ids. -/
inductive Layer where
  | sphere (fill : String)
  | base (world : List Int) (fill : String) (stroke : String)
  | overlay (transform : LookupTransform) (shapeField : String)
      (color : ColorDef)
deriving DecidableEq, Repr

/-- The assembled Vega-Lite spec: sizing, `data: {values: ...}`,
`projection: {type: ...}`, and the ordered layer list. -/
structure VegaLiteSpec where
  size : SizeBlock
  dataValues : List MappedRow
  projection : String
  layer : List Layer
deriving DecidableEq, Repr

/-- `getVegaLiteSpec(data)`. In source order: throw on a null top value,
throw on a non-array top value, select region/color fields, classify the
color field (`colorField ? getDataType(colorField) : undefined`), build
`colorDef` (reading `colorField.name` — a `TypeError` when there are
fewer than two fields), map the rows, filter out rows whose region value
is `undefined`, and assemble the three-layer mercator spec.
`codes` is `COUNTRY_CODES`, `world` the world-atlas dataset, `fmt` the
external `formatTitle (options, ·)`, `colorScale` the external
`getColorScale`, `size` the result of `getSize()`, `explore` is
`data.field`. -/
def getVegaLiteSpec (codes : String → Option Int) (world : List Int)
    (fmt : String → String)
    (colorScale : Option EncodingType → Bool → String)
    (size : SizeBlock) (explore : Explore) :
    TopValue → Except RenderError VegaLiteSpec
  | TopValue.null => Except.error RenderError.nullStruct
  | TopValue.other => Except.error RenderError.invalidData
  | TopValue.rows rs =>
      match (match getColorField explore with
             | some cf => (getDataType explore cf).map some
             | none => Except.ok none) with
      | Except.error e => Except.error e
      | Except.ok colorType =>
        match getColorField explore with
        | none => Except.error RenderError.undefinedAccess
        | some cf =>
          let colorDef : ColorDef :=
            { field := cf.name, type := colorType,
              axisTitle := fmt cf.name,
              scale := colorScale colorType false }
          match mapData codes explore rs with
          | Except.error e => Except.error e
          | Except.ok m =>
            match getRegionField explore with
            | none => Except.error RenderError.undefinedAccess
            | some rf =>
              Except.ok
                { size := size
                  dataValues :=
                    m.filter (fun row => (rowGet row rf.name).isSome)
                  projection := "mercator"
                  layer :=
                    [Layer.sphere "aliceblue",
                     Layer.base world "mintcream" "black",
                     Layer.overlay
                       { lookup := rf.name, fromData := world,
                         key := "id", asName := "geo" }
                       "geo" colorDef] }

/-- The value `getDataValue` yields for a cell when it does not throw
(`none` on an error, which never collides with a successful call in the
lemmas below because they are only used under a success hypothesis). -/
def cellValueOr (codes : String → Option Int) (explore : Explore)
    (f : Field) (v : CellValue) : Option ScalarValue :=
  match getDataValue codes explore f v with
  | Except.ok mv => mv
  | Except.error _ => none

/-- The mapped row a successful `mapRow` produces: one `(name, value)`
entry per cell, in order. -/
def rowMapped (codes : String → Option Int) (explore : Explore)
    (r : Row) : MappedRow :=
  r.map (fun p => (p.1.name, cellValueOr codes explore p.1 p.2))

/-- The last cell of a row whose field is named `key` — the one whose
mapped value wins under JavaScript object-write semantics. -/
def lastCellNamed (r : Row) (key : String) : Option (Field × CellValue) :=
  r.reverse.find? (fun p => p.1.name == key)

/-- The value stored at `key` in the mapped form of row `r`. -/
def rowValue (codes : String → Option Int) (explore : Explore)
    (key : String) (r : Row) : Option ScalarValue :=
  match lastCellNamed r key with
  | some p => cellValueOr codes explore p.1 p.2
  | none => none

/-! ### Concrete instances

A concrete result shape and country-code table used to exercise the
theorems: the two-field `country` / `value` result of the specification's
France / Atlantis / Japan scenario, plus variants (a one-field result, a
result with a structural cell, a result with a numeric region value). -/

/-- The region field of the concrete examples. -/
def exCountry : Field :=
  { fid := 0, name := "country", kind := FieldKind.string }

/-- The measure field of the concrete examples. -/
def exValue : Field :=
  { fid := 1, name := "value", kind := FieldKind.number }

/-- A concrete date field. -/
def exDate : Field :=
  { fid := 2, name := "when", kind := FieldKind.date }

/-- A concrete string field that is not the region field. -/
def exLabel : Field :=
  { fid := 3, name := "label", kind := FieldKind.string }

/-- A concrete structural (non-atomic) field. -/
def exStruct : Field :=
  { fid := 4, name := "nested", kind := FieldKind.nonAtomic }

/-- The two-field result context of the scenario. -/
def exExplore : Explore :=
  { intrinsicFields := [exCountry, exValue] }

/-- A result context with a single top-level field. -/
def exExplore1 : Explore :=
  { intrinsicFields := [exCountry] }

/-- The concrete country-code table: France resolves to 250, Japan to
392, everything else is unknown. -/
def exCodes : String → Option Int := fun s =>
  if s = "France" then some 250
  else if s = "Japan" then some 392
  else none

/-- The concrete world-atlas dataset, as its feature-id list. -/
def exWorld : List Int := [250, 392]

/-- A concrete title formatter standing in for `formatTitle`. -/
def exFmt : String → String := fun s => s

/-- A concrete color-scale helper standing in for `getColorScale`. -/
def exScale : Option EncodingType → Bool → String := fun _ _ => "scale"

/-- A concrete sizing block standing in for `getSize()`. -/
def exSize : SizeBlock := { width := 300, height := 200 }

/-- The France / Atlantis / Japan scenario rows. -/
def exRows : List Row :=
  [[(exCountry, CellValue.str "France"), (exValue, CellValue.num 10)],
   [(exCountry, CellValue.str "Atlantis"), (exValue, CellValue.num 5)],
   [(exCountry, CellValue.str "Japan"), (exValue, CellValue.null)]]

/-- Rows containing a structural cell where a scalar is expected. -/
def exRowsArr : List Row :=
  [[(exCountry, CellValue.str "France"), (exValue, CellValue.arr)]]

/-- A single row whose region cell is already numeric (999 matches no
feature id of `exWorld`). -/
def exRowsNum : List Row :=
  [[(exCountry, CellValue.num 999), (exValue, CellValue.num 1)]]

/-- The mapped France row of the scenario. -/
def exMappedFrance : MappedRow :=
  [("country", some (ScalarValue.num 250)), ("value", some (ScalarValue.num 10))]

/-- The mapped Atlantis row of the scenario (region absent). -/
def exMappedAtlantis : MappedRow :=
  [("country", none), ("value", some (ScalarValue.num 5))]

/-- The mapped Japan row of the scenario (measure absent). -/
def exMappedJapan : MappedRow :=
  [("country", some (ScalarValue.num 392)), ("value", none)]

/-- The mapped row of `exRowsNum`. -/
def exMappedNum : MappedRow :=
  [("country", some (ScalarValue.num 999)), ("value", some (ScalarValue.num 1))]

/-- The three fixed layers produced for the concrete examples. -/
def exLayers : List Layer :=
  [Layer.sphere "aliceblue",
   Layer.base exWorld "mintcream" "black",
   Layer.overlay
     { lookup := "country", fromData := exWorld, key := "id", asName := "geo" }
     "geo"
     { field := "value", type := some EncodingType.quantitative,
       axisTitle := "value", scale := "scale" }]

/-- The spec produced for the scenario input. -/
def exSpec : VegaLiteSpec :=
  { size := exSize, dataValues := [exMappedFrance, exMappedJapan],
    projection := "mercator", layer := exLayers }

/-- The spec produced for an empty row list. -/
def exSpecEmpty : VegaLiteSpec :=
  { size := exSize, dataValues := [],
    projection := "mercator", layer := exLayers }

/-- The spec produced for `exRowsNum`. -/
def exSpecNum : VegaLiteSpec :=
  { size := exSize, dataValues := [exMappedNum],
    projection := "mercator", layer := exLayers }

/-! ### Basic lemmas about the row mapper -/

/-- The only error `getDataValue` ever raises is `invalidFieldType`. -/
theorem getDataValue_error_eq {codes : String → Option Int}
    {explore : Explore} {f : Field} {v : CellValue} {e : RenderError}
    (h : getDataValue codes explore f v = Except.error e) :
    e = RenderError.invalidFieldType := by
  cases v with
  | num n => simp [getDataValue] at h
  | str s =>
      simp only [getDataValue] at h
      split at h
      · split at h <;> simp_all
      · simp_all
  | null => simp [getDataValue] at h
  | arr =>
      simp only [getDataValue, Except.error.injEq] at h
      exact h.symm

/-- A successful `mapRow` yields exactly the pointwise-mapped record. -/
theorem mapRow_ok_eq {codes : String → Option Int} {explore : Explore} :
    ∀ {r : Row} {mr : MappedRow},
      mapRow codes explore r = Except.ok mr →
      mr = rowMapped codes explore r := by
  intro r
  induction r with
  | nil =>
      intro mr h
      simp only [mapRow, Except.ok.injEq] at h
      simp [rowMapped, ← h]
  | cons p rest ih =>
      intro mr h
      cases hval : getDataValue codes explore p.1 p.2 with
      | error e1 => simp [mapRow, hval] at h
      | ok mv =>
          cases hrest : mapRow codes explore rest with
          | error e2 => simp [mapRow, hval, hrest] at h
          | ok mrest =>
              simp only [mapRow, hval, hrest, Except.ok.injEq] at h
              subst h
              rw [ih hrest]
              simp [rowMapped, cellValueOr, hval]

/-- A successful `mapRow` means every cell mapped successfully. -/
theorem mapRow_ok_cells {codes : String → Option Int} {explore : Explore} :
    ∀ {r : Row} {mr : MappedRow},
      mapRow codes explore r = Except.ok mr →
      ∀ p ∈ r, ∃ mv, getDataValue codes explore p.1 p.2 = Except.ok mv := by
  intro r
  induction r with
  | nil => intro mr _ p hp; cases hp
  | cons q rest ih =>
      intro mr h p hp
      cases hval : getDataValue codes explore q.1 q.2 with
      | error e1 => simp [mapRow, hval] at h
      | ok mv =>
          cases hrest : mapRow codes explore rest with
          | error e2 => simp [mapRow, hval, hrest] at h
          | ok mrest =>
              rcases List.mem_cons.mp hp with hq | hq
              · exact ⟨mv, hq ▸ hval⟩
              · exact ih hrest p hq

/-- The only error `mapRow` ever raises is `invalidFieldType`. -/
theorem mapRow_error_eq {codes : String → Option Int} {explore : Explore} :
    ∀ {r : Row} {e : RenderError},
      mapRow codes explore r = Except.error e →
      e = RenderError.invalidFieldType := by
  intro r
  induction r with
  | nil => intro e h; simp [mapRow] at h
  | cons p rest ih =>
      intro e h
      cases hval : getDataValue codes explore p.1 p.2 with
      | error e1 =>
          simp only [mapRow, hval, Except.error.injEq] at h
          exact h ▸ getDataValue_error_eq hval
      | ok mv =>
          cases hrest : mapRow codes explore rest with
          | error e2 =>
              simp only [mapRow, hval, hrest, Except.error.injEq] at h
              exact h ▸ ih hrest
          | ok mrest => simp [mapRow, hval, hrest] at h

/-- A successful `mapData` yields the pointwise-mapped rows. -/
theorem mapData_ok_eq {codes : String → Option Int} {explore : Explore} :
    ∀ {rs : List Row} {m : List MappedRow},
      mapData codes explore rs = Except.ok m →
      m = rs.map (rowMapped codes explore) := by
  intro rs
  induction rs with
  | nil =>
      intro m h
      simp only [mapData, Except.ok.injEq] at h
      simp [← h]
  | cons r rest ih =>
      intro m h
      cases hrow : mapRow codes explore r with
      | error e1 => simp [mapData, hrow] at h
      | ok mr =>
          cases hrest : mapData codes explore rest with
          | error e2 => simp [mapData, hrow, hrest] at h
          | ok mrest =>
              simp only [mapData, hrow, hrest, Except.ok.injEq] at h
              subst h
              rw [ih hrest]
              simp [mapRow_ok_eq hrow]

/-- A successful `mapData` means every row mapped successfully. -/
theorem mapData_ok_rows {codes : String → Option Int} {explore : Explore} :
    ∀ {rs : List Row} {m : List MappedRow},
      mapData codes explore rs = Except.ok m →
      ∀ r ∈ rs, mapRow codes explore r = Except.ok (rowMapped codes explore r) := by
  intro rs
  induction rs with
  | nil => intro m _ r hr; cases hr
  | cons q rest ih =>
      intro m h r hr
      cases hrow : mapRow codes explore q with
      | error e1 => simp [mapData, hrow] at h
      | ok mr =>
          cases hrest : mapData codes explore rest with
          | error e2 => simp [mapData, hrow, hrest] at h
          | ok mrest =>
              rcases List.mem_cons.mp hr with hq | hq
              · subst hq
                exact (mapRow_ok_eq hrow) ▸ hrow
              · exact ih hrest r hq

/-- The only error `mapData` ever raises is `invalidFieldType`. -/
theorem mapData_error_eq {codes : String → Option Int} {explore : Explore} :
    ∀ {rs : List Row} {e : RenderError},
      mapData codes explore rs = Except.error e →
      e = RenderError.invalidFieldType := by
  intro rs
  induction rs with
  | nil => intro e h; simp [mapData] at h
  | cons r rest ih =>
      intro e h
      cases hrow : mapRow codes explore r with
      | error e1 =>
          simp only [mapData, hrow, Except.error.injEq] at h
          exact h ▸ mapRow_error_eq hrow
      | ok mr =>
          cases hrest : mapData codes explore rest with
          | error e2 =>
              simp only [mapData, hrow, hrest, Except.error.injEq] at h
              exact h ▸ ih hrest
          | ok mrest => simp [mapData, hrow, hrest] at h

/-- With a structural cell in some row, `mapData` fails, and with the
`invalidFieldType` error. -/
theorem mapData_arr_error {codes : String → Option Int} {explore : Explore}
    {rs : List Row} {r : Row} {p : Field × CellValue}
    (hr : r ∈ rs) (hp : p ∈ r) (harr : p.2 = CellValue.arr) :
    mapData codes explore rs = Except.error RenderError.invalidFieldType := by
  cases hm : mapData codes explore rs with
  | ok m =>
      rcases mapRow_ok_cells (mapData_ok_rows hm r hr) p hp with ⟨mv, hmv⟩
      rw [harr] at hmv
      simp [getDataValue] at hmv
  | error e =>
      rw [mapData_error_eq hm]

/-- Reading a key from a mapped row recovers the value of the last cell
with that name. -/
theorem rowGet_rowMapped (codes : String → Option Int) (explore : Explore)
    (r : Row) (key : String) :
    rowGet (rowMapped codes explore r) key = rowValue codes explore key r := by
  unfold rowGet rowValue lastCellNamed rowMapped
  rw [← List.map_reverse, List.find?_map]
  have hcomp : (fun p : Field × CellValue => p.1.name == key) =
      ((fun q : String × Option ScalarValue => q.1 == key) ∘
        (fun p : Field × CellValue =>
          (p.1.name, cellValueOr codes explore p.1 p.2))) := rfl
  cases hf : r.reverse.find? (fun p => p.1.name == key) with
  | none =>
      rw [← hcomp, hf]
      simp
  | some q =>
      rw [← hcomp, hf]
      simp

/-! ### Inversion of the spec assembler -/

/-- Inversion of a successful `getVegaLiteSpec` call on an array value:
both roles were filled, the color field classified, all rows mapped, and
the spec is exactly the filtered data with the three fixed layers. -/
theorem getVegaLiteSpec_rows_ok {codes : String → Option Int}
    {world : List Int} {fmt : String → String}
    {cs : Option EncodingType → Bool → String} {size : SizeBlock}
    {explore : Explore} {rs : List Row} {spec : VegaLiteSpec}
    (h : getVegaLiteSpec codes world fmt cs size explore (TopValue.rows rs) =
      Except.ok spec) :
    ∃ rf cf t m,
      getRegionField explore = some rf ∧
      getColorField explore = some cf ∧
      getDataType explore cf = Except.ok t ∧
      mapData codes explore rs = Except.ok m ∧
      spec =
        { size := size
          dataValues := m.filter (fun row => (rowGet row rf.name).isSome)
          projection := "mercator"
          layer :=
            [Layer.sphere "aliceblue",
             Layer.base world "mintcream" "black",
             Layer.overlay
               { lookup := rf.name, fromData := world,
                 key := "id", asName := "geo" }
               "geo"
               { field := cf.name, type := some t,
                 axisTitle := fmt cf.name,
                 scale := cs (some t) false }] } := by
  cases hcf : getColorField explore with
  | none => simp [getVegaLiteSpec, hcf] at h
  | some cf =>
      cases hdt : getDataType explore cf with
      | error e => simp [getVegaLiteSpec, hcf, hdt, Except.map] at h
      | ok t =>
          cases hm : mapData codes explore rs with
          | error e => simp [getVegaLiteSpec, hcf, hdt, hm, Except.map] at h
          | ok m =>
              cases hrf : getRegionField explore with
              | none =>
                  simp [getVegaLiteSpec, hcf, hdt, hm, hrf, Except.map] at h
              | some rf =>
                  refine ⟨rf, cf, t, m, rfl, rfl, hdt, rfl, ?_⟩
                  simp only [getVegaLiteSpec, hcf, hdt, hm, hrf, Except.map,
                    Except.ok.injEq] at h
                  exact h.symm

/-- When the color field classifies successfully but some row holds a
structural cell, the whole render aborts with `invalidFieldType`. -/
theorem getVegaLiteSpec_rows_mapError {codes : String → Option Int}
    {explore : Explore} {cf : Field} {t : EncodingType}
    (hcf : getColorField explore = some cf)
    (hdt : getDataType explore cf = Except.ok t)
    {rs : List Row} {e : RenderError}
    (hm : mapData codes explore rs = Except.error e)
    (world : List Int) (fmt : String → String)
    (cs : Option EncodingType → Bool → String) (size : SizeBlock) :
    getVegaLiteSpec codes world fmt cs size explore (TopValue.rows rs) =
      Except.error e := by
  simp [getVegaLiteSpec, hcf, hdt, hm, Except.map]

/-- `countP` of a predicate and of its negation partition a list's
length. -/
theorem countP_add_countP_not {α : Type} (p : α → Bool) (l : List α) :
    l.countP p + l.countP (fun a => !(p a)) = l.length := by
  induction l with
  | nil => simp
  | cons a t ih => by_cases h : p a <;> simp [List.countP_cons, h] <;> omega

/-- `countP` of a predicate as the length minus the count of its
complement. -/
theorem countP_compl {α : Type} (p : α → Bool) (l : List α) :
    l.countP p = l.length - l.countP (fun a => !(p a)) := by
  have h := countP_add_countP_not p l
  omega

/-! ### Claims -/

/-- C1: every input row whose region-field cell is a string with no entry
in the country-code table is absent from the output data set (a hard
drop); the output row count is the input count minus the number of
unresolvable-region rows (rows whose mapped region value is absent); and
the surviving rows keep their relative input order (the output is a
sublist of the mapped input). -/
theorem C1_unresolvable_region_rows_dropped
    {codes : String → Option Int} {world : List Int} {fmt : String → String}
    {cs : Option EncodingType → Bool → String} {size : SizeBlock}
    {explore : Explore} {rs : List Row} {spec : VegaLiteSpec} {rf : Field}
    (hspec : getVegaLiteSpec codes world fmt cs size explore
      (TopValue.rows rs) = Except.ok spec)
    (hrf : getRegionField explore = some rf) :
    (∀ r ∈ rs, ∀ (g : Field) (s : String),
        lastCellNamed r rf.name = some (g, CellValue.str s) →
        getRegionField explore = some g → codes s = none →
        ∀ mr, mapRow codes explore r = Except.ok mr →
          mr ∉ spec.dataValues) ∧
    spec.dataValues.length =
      rs.length -
        rs.countP (fun r => !(rowValue codes explore rf.name r).isSome) ∧
    spec.dataValues.Sublist (rs.map (rowMapped codes explore)) := by
  rcases getVegaLiteSpec_rows_ok hspec with ⟨rf2, cf, t, m, hrf2, hcf, hdt, hm, rfl⟩
  obtain rfl : rf = rf2 := Option.some.inj (hrf.symm.trans hrf2)
  obtain rfl : m = rs.map (rowMapped codes explore) := mapData_ok_eq hm
  dsimp only
  have hcnt : (rs.map (rowMapped codes explore)).countP
        (fun row => (rowGet row rf.name).isSome) =
      rs.countP (fun r => (rowValue codes explore rf.name r).isSome) := by
    rw [List.countP_map]
    congr 1
    funext r
    simp [Function.comp, rowGet_rowMapped]
  refine ⟨?_, ?_, ?_⟩
  · intro r hr g s hlast hg hcodes mr hmr hmem
    obtain rfl : mr = rowMapped codes explore r := mapRow_ok_eq hmr
    have hpred := (List.mem_filter.mp hmem).2
    have hval : cellValueOr codes explore g (CellValue.str s) = none := by
      simp [cellValueOr, getDataValue, hg, hcodes]
    rw [rowGet_rowMapped] at hpred
    simp [rowValue, hlast, hval] at hpred
  · rw [← List.countP_eq_length_filter, hcnt]
    exact countP_compl _ rs
  · exact List.filter_sublist _

/-- C1 witness: in the France / Atlantis / Japan scenario, the Atlantis
row (unknown country) is dropped, the output has 3 − 1 = 2 rows, and the
survivors keep their order. -/
theorem C1_witness :
    getVegaLiteSpec exCodes exWorld exFmt exScale exSize exExplore
      (TopValue.rows exRows) = Except.ok exSpec ∧
    getRegionField exExplore = some exCountry ∧
    exMappedAtlantis ∉ exSpec.dataValues ∧
    exSpec.dataValues.length =
      exRows.length -
        exRows.countP
          (fun r => !(rowValue exCodes exExplore "country" r).isSome) ∧
    exSpec.dataValues.Sublist (exRows.map (rowMapped exCodes exExplore)) := by
  have h1 : getVegaLiteSpec exCodes exWorld exFmt exScale exSize exExplore
      (TopValue.rows exRows) = Except.ok exSpec := by rfl
  have h2 : getRegionField exExplore = some exCountry := by decide
  have hmain := C1_unresolvable_region_rows_dropped h1 h2
  refine ⟨h1, h2, ?_, hmain.2.1, hmain.2.2⟩
  exact hmain.1 [(exCountry, CellValue.str "Atlantis"), (exValue, CellValue.num 5)]
    (by decide) exCountry "Atlantis" (by decide) (by decide) (by decide)
    exMappedAtlantis (by rfl)

/-- C2: every input row whose region-field cell is a string with a known
mapping contributes an output row in which the region field's value is
the mapped numeric identifier (the string label is replaced). -/
theorem C2_resolved_region_substituted
    {codes : String → Option Int} {world : List Int} {fmt : String → String}
    {cs : Option EncodingType → Bool → String} {size : SizeBlock}
    {explore : Explore} {rs : List Row} {spec : VegaLiteSpec} {rf : Field}
    {r : Row} {s : String} {id : Int}
    (hspec : getVegaLiteSpec codes world fmt cs size explore
      (TopValue.rows rs) = Except.ok spec)
    (hrf : getRegionField explore = some rf)
    (hr : r ∈ rs)
    (hcell : lastCellNamed r rf.name = some (rf, CellValue.str s))
    (hid : codes s = some id) :
    ∃ mr, mapRow codes explore r = Except.ok mr ∧
      mr ∈ spec.dataValues ∧
      rowGet mr rf.name = some (ScalarValue.num id) := by
  rcases getVegaLiteSpec_rows_ok hspec with ⟨rf2, cf, t, m, hrf2, hcf, hdt, hm, rfl⟩
  obtain rfl : rf = rf2 := Option.some.inj (hrf.symm.trans hrf2)
  obtain rfl : m = rs.map (rowMapped codes explore) := mapData_ok_eq hm
  dsimp only
  have hvalue : rowGet (rowMapped codes explore r) rf.name =
      some (ScalarValue.num id) := by
    rw [rowGet_rowMapped]
    simp [rowValue, hcell, cellValueOr, getDataValue, hrf, hid]
  refine ⟨rowMapped codes explore r, mapData_ok_rows hm r hr, ?_, hvalue⟩
  exact List.mem_filter.mpr
    ⟨List.mem_map_of_mem _ hr, by simp [hvalue]⟩

/-- C2 witness: the France row survives with region value 250. -/
theorem C2_witness :
    getVegaLiteSpec exCodes exWorld exFmt exScale exSize exExplore
      (TopValue.rows exRows) = Except.ok exSpec ∧
    getRegionField exExplore = some exCountry ∧
    [(exCountry, CellValue.str "France"), (exValue, CellValue.num 10)] ∈ exRows ∧
    lastCellNamed [(exCountry, CellValue.str "France"), (exValue, CellValue.num 10)]
      "country" = some (exCountry, CellValue.str "France") ∧
    exCodes "France" = some 250 ∧
    (∃ mr, mapRow exCodes exExplore
        [(exCountry, CellValue.str "France"), (exValue, CellValue.num 10)] =
          Except.ok mr ∧
      mr ∈ exSpec.dataValues ∧
      rowGet mr "country" = some (ScalarValue.num 250)) := by
  have h1 : getVegaLiteSpec exCodes exWorld exFmt exScale exSize exExplore
      (TopValue.rows exRows) = Except.ok exSpec := by rfl
  have h2 : getRegionField exExplore = some exCountry := by decide
  have h3 : [(exCountry, CellValue.str "France"), (exValue, CellValue.num 10)] ∈
      exRows := by decide
  have h4 : lastCellNamed
      [(exCountry, CellValue.str "France"), (exValue, CellValue.num 10)]
      "country" = some (exCountry, CellValue.str "France") := by decide
  have h5 : exCodes "France" = some 250 := by decide
  exact ⟨h1, h2, h3, h4, h5,
    C2_resolved_region_substituted h1 h2 h3 h4 h5⟩

/-- C3: encoding classification is a function of the field's declared
kind and its role: date/timestamp fields are `nominal`; a string field
that is the region field is `quantitative`; any other string field is
`nominal`; a number field is `quantitative`. -/
theorem C3_type_classification (explore : Explore) (f : Field) :
    ((f.kind = FieldKind.date ∨ f.kind = FieldKind.timestamp) →
      getDataType explore f = Except.ok EncodingType.nominal) ∧
    (f.kind = FieldKind.string → getRegionField explore = some f →
      getDataType explore f = Except.ok EncodingType.quantitative) ∧
    (f.kind = FieldKind.string → ¬(getRegionField explore = some f) →
      getDataType explore f = Except.ok EncodingType.nominal) ∧
    (f.kind = FieldKind.number →
      getDataType explore f = Except.ok EncodingType.quantitative) := by
  refine ⟨?_, ?_, ?_, ?_⟩
  · rintro (h | h) <;> simp [getDataType, Field.isAtomicField, h]
  · intro h hreg
    simp [getDataType, Field.isAtomicField, h, hreg]
  · intro h hreg
    simp [getDataType, Field.isAtomicField, h, hreg]
  · intro h
    simp [getDataType, Field.isAtomicField, h]

/-- C3 witness: a date field, the region string field, a non-region
string field and a number field classify as nominal, quantitative,
nominal and quantitative respectively. -/
theorem C3_witness :
    getDataType exExplore exDate = Except.ok EncodingType.nominal ∧
    getDataType exExplore exCountry = Except.ok EncodingType.quantitative ∧
    getDataType exExplore exLabel = Except.ok EncodingType.nominal ∧
    getDataType exExplore exValue = Except.ok EncodingType.quantitative :=
  ⟨(C3_type_classification exExplore exDate).1 (Or.inl rfl),
   (C3_type_classification exExplore exCountry).2.1 rfl (by decide),
   (C3_type_classification exExplore exLabel).2.2.1 rfl (by decide),
   (C3_type_classification exExplore exValue).2.2.2 rfl⟩

/-- C4: every successful call yields a spec with the fixed mercator
projection and exactly three layers in fixed order: sphere background,
world-outline base, data overlay — for any row count, including zero
surviving rows. -/
theorem C4_three_layers_mercator
    {codes : String → Option Int} {world : List Int} {fmt : String → String}
    {cs : Option EncodingType → Bool → String} {size : SizeBlock}
    {explore : Explore} {rs : List Row} {spec : VegaLiteSpec}
    (hspec : getVegaLiteSpec codes world fmt cs size explore
      (TopValue.rows rs) = Except.ok spec) :
    spec.projection = "mercator" ∧
    ∃ rf cf t, getRegionField explore = some rf ∧
      getColorField explore = some cf ∧
      spec.layer =
        [Layer.sphere "aliceblue",
         Layer.base world "mintcream" "black",
         Layer.overlay
           { lookup := rf.name, fromData := world, key := "id",
             asName := "geo" }
           "geo"
           { field := cf.name, type := some t, axisTitle := fmt cf.name,
             scale := cs (some t) false }] := by
  rcases getVegaLiteSpec_rows_ok hspec with ⟨rf, cf, t, m, hrf, hcf, hdt, hm, rfl⟩
  exact ⟨rfl, rf, cf, t, hrf, hcf, rfl⟩

/-- C4 witness: with zero input rows (hence zero surviving rows) the spec
still has the mercator projection and the three fixed layers. -/
theorem C4_witness :
    getVegaLiteSpec exCodes exWorld exFmt exScale exSize exExplore
      (TopValue.rows []) = Except.ok exSpecEmpty ∧
    exSpecEmpty.projection = "mercator" ∧
    (∃ rf cf t, getRegionField exExplore = some rf ∧
      getColorField exExplore = some cf ∧
      exSpecEmpty.layer =
        [Layer.sphere "aliceblue",
         Layer.base exWorld "mintcream" "black",
         Layer.overlay
           { lookup := rf.name, fromData := exWorld, key := "id",
             asName := "geo" }
           "geo"
           { field := cf.name, type := some t, axisTitle := exFmt cf.name,
             scale := exScale (some t) false }]) ∧
    exSpecEmpty.dataValues = [] := by
  have h1 : getVegaLiteSpec exCodes exWorld exFmt exScale exSize exExplore
      (TopValue.rows []) = Except.ok exSpecEmpty := by rfl
  exact ⟨h1, (C4_three_layers_mercator h1).1, (C4_three_layers_mercator h1).2, rfl⟩

/-- C5: a structural (array/struct) cell raises `invalidFieldType` from
the value mapper, a field kind outside the four scalar kinds raises
`invalidFieldType` from the classifier, a string cell never raises (an
unresolvable region is not an error), and a structural cell in any row
aborts the entire render with `invalidFieldType`. -/
theorem C5_invalid_field_type (codes : String → Option Int)
    (explore : Explore) (f : Field) :
    getDataValue codes explore f CellValue.arr =
      Except.error RenderError.invalidFieldType ∧
    ((f.kind = FieldKind.otherAtomic ∨ f.kind = FieldKind.nonAtomic) →
      getDataType explore f = Except.error RenderError.invalidFieldType) ∧
    (∀ s, ∃ mv, getDataValue codes explore f (CellValue.str s) =
      Except.ok mv) ∧
    (∀ (world : List Int) (fmt : String → String)
        (cs : Option EncodingType → Bool → String) (size : SizeBlock)
        (rs : List Row) (cf : Field) (t : EncodingType),
      getColorField explore = some cf →
      getDataType explore cf = Except.ok t →
      (∃ r ∈ rs, ∃ p ∈ r, (p : Field × CellValue).2 = CellValue.arr) →
      getVegaLiteSpec codes world fmt cs size explore (TopValue.rows rs) =
        Except.error RenderError.invalidFieldType) := by
  refine ⟨rfl, ?_, ?_, ?_⟩
  · rintro (h | h) <;> simp [getDataType, Field.isAtomicField, h]
  · intro s
    simp only [getDataValue]
    split
    · cases hc : codes s with
      | none => exact ⟨none, rfl⟩
      | some id => exact ⟨some (ScalarValue.num id), rfl⟩
    · exact ⟨some (ScalarValue.str s), rfl⟩
  · intro world fmt cs size rs cf t hcf hdt hex
    rcases hex with ⟨r, hr, p, hp, harr⟩
    exact getVegaLiteSpec_rows_mapError hcf hdt
      (mapData_arr_error hr hp harr) world fmt cs size

/-- C5 witness: a non-atomic field and a structural cell raise
`invalidFieldType`; the unresolvable string "Atlantis" does not raise;
one structural cell aborts the whole render. -/
theorem C5_witness :
    (exStruct.kind = FieldKind.otherAtomic ∨
      exStruct.kind = FieldKind.nonAtomic) ∧
    getDataType exExplore exStruct =
      Except.error RenderError.invalidFieldType ∧
    getDataValue exCodes exExplore exValue CellValue.arr =
      Except.error RenderError.invalidFieldType ∧
    (∃ mv, getDataValue exCodes exExplore exCountry
      (CellValue.str "Atlantis") = Except.ok mv) ∧
    getColorField exExplore = some exValue ∧
    getDataType exExplore exValue = Except.ok EncodingType.quantitative ∧
    (∃ r ∈ exRowsArr, ∃ p ∈ r,
      (p : Field × CellValue).2 = CellValue.arr) ∧
    getVegaLiteSpec exCodes exWorld exFmt exScale exSize exExplore
      (TopValue.rows exRowsArr) =
        Except.error RenderError.invalidFieldType := by
  have hk : exStruct.kind = FieldKind.otherAtomic ∨
      exStruct.kind = FieldKind.nonAtomic := Or.inr rfl
  have hcf : getColorField exExplore = some exValue := by decide
  have hdt : getDataType exExplore exValue =
      Except.ok EncodingType.quantitative := by rfl
  have hex : ∃ r ∈ exRowsArr, ∃ p ∈ r,
      (p : Field × CellValue).2 = CellValue.arr :=
    ⟨[(exCountry, CellValue.str "France"), (exValue, CellValue.arr)],
      by decide, (exValue, CellValue.arr), by decide, rfl⟩
  exact ⟨hk,
    (C5_invalid_field_type exCodes exExplore exStruct).2.1 hk,
    (C5_invalid_field_type exCodes exExplore exValue).1,
    (C5_invalid_field_type exCodes exExplore exCountry).2.2.1 "Atlantis",
    hcf, hdt, hex,
    (C5_invalid_field_type exCodes exExplore exValue).2.2.2
      exWorld exFmt exScale exSize exRowsArr exValue
      EncodingType.quantitative hcf hdt hex⟩

/-- C6: a null top-level value raises the null-struct error and any
non-array top-level value raises the invalid-data error, in both cases
before any row is mapped (the result is the error for every row
content). -/
theorem C6_invalid_input_shape (codes : String → Option Int)
    (world : List Int) (fmt : String → String)
    (cs : Option EncodingType → Bool → String) (size : SizeBlock)
    (explore : Explore) :
    getVegaLiteSpec codes world fmt cs size explore TopValue.null =
      Except.error RenderError.nullStruct ∧
    getVegaLiteSpec codes world fmt cs size explore TopValue.other =
      Except.error RenderError.invalidData :=
  ⟨rfl, rfl⟩

/-- C7: with fewer than two top-level fields the call never completes
with a spec: it fails, deterministically, with the error that models the
runtime `TypeError` of reading `colorField.name` from `undefined`. -/
theorem C7_too_few_fields_fails (codes : String → Option Int)
    (world : List Int) (fmt : String → String)
    (cs : Option EncodingType → Bool → String) (size : SizeBlock)
    {explore : Explore} (h : explore.intrinsicFields.length < 2)
    (rs : List Row) :
    getVegaLiteSpec codes world fmt cs size explore (TopValue.rows rs) =
      Except.error RenderError.undefinedAccess := by
  have hcf : getColorField explore = none := by
    unfold getColorField
    exact List.getElem?_eq_none_iff.mpr (by omega)
  simp [getVegaLiteSpec, hcf]

/-- C7 witness: a one-field result fails with the undefined-access
error. -/
theorem C7_witness :
    exExplore1.intrinsicFields.length < 2 ∧
    getVegaLiteSpec exCodes exWorld exFmt exScale exSize exExplore1
      (TopValue.rows exRows) = Except.error RenderError.undefinedAccess :=
  ⟨by decide,
   C7_too_few_fields_fails exCodes exWorld exFmt exScale exSize
     (by decide) exRows⟩

/-- C8: a null cell never raises (its value becomes absent), and in the
France / Atlantis / Japan scenario the Japan row — resolvable region,
null measure — survives as `{country: 392, value: absent}` while only
the Atlantis row is dropped. -/
theorem C8_null_cells_never_fault :
    (∀ (codes : String → Option Int) (explore : Explore) (g : Field),
      getDataValue codes explore g CellValue.null = Except.ok none) ∧
    getVegaLiteSpec exCodes exWorld exFmt exScale exSize exExplore
      (TopValue.rows exRows) = Except.ok exSpec ∧
    exSpec.dataValues = [exMappedFrance, exMappedJapan] ∧
    rowGet exMappedJapan "country" = some (ScalarValue.num 392) ∧
    rowGet exMappedJapan "value" = none :=
  ⟨fun _ _ _ => rfl, by rfl, rfl, by decide, by decide⟩

/-- C9: the transform is deterministic — two calls on the same result and
the same static assets yield structurally identical specs. -/
theorem C9_deterministic {codes : String → Option Int} {world : List Int}
    {fmt : String → String} {cs : Option EncodingType → Bool → String}
    {size : SizeBlock} {explore : Explore} {v : TopValue}
    {s1 s2 : VegaLiteSpec}
    (h1 : getVegaLiteSpec codes world fmt cs size explore v = Except.ok s1)
    (h2 : getVegaLiteSpec codes world fmt cs size explore v = Except.ok s2) :
    s1 = s2 := by
  rw [h1] at h2
  exact Except.ok.inj h2

/-- C9 witness: the scenario call compared with itself. -/
theorem C9_witness :
    getVegaLiteSpec exCodes exWorld exFmt exScale exSize exExplore
      (TopValue.rows exRows) = Except.ok exSpec ∧
    exSpec = exSpec := by
  have h : getVegaLiteSpec exCodes exWorld exFmt exScale exSize exExplore
      (TopValue.rows exRows) = Except.ok exSpec := by rfl
  exact ⟨h, C9_deterministic h h⟩

/-- C10: a numeric region cell passes through unchanged — for every
country-code table, with no lookup — and its row is never filtered out,
whatever the world-geometry dataset's feature ids are (the statement
quantifies over arbitrary `world`, so in particular over datasets where
the number matches no feature id). -/
theorem C10_numeric_region_passthrough
    {codes : String → Option Int} {world : List Int} {fmt : String → String}
    {cs : Option EncodingType → Bool → String} {size : SizeBlock}
    {explore : Explore} {rs : List Row} {spec : VegaLiteSpec} {rf : Field}
    {r : Row} {n : Int}
    (hspec : getVegaLiteSpec codes world fmt cs size explore
      (TopValue.rows rs) = Except.ok spec)
    (hrf : getRegionField explore = some rf)
    (hr : r ∈ rs)
    (hcell : lastCellNamed r rf.name = some (rf, CellValue.num n)) :
    (∀ (codes2 : String → Option Int) (g : Field),
      getDataValue codes2 explore g (CellValue.num n) =
        Except.ok (some (ScalarValue.num n))) ∧
    ∃ mr, mapRow codes explore r = Except.ok mr ∧
      mr ∈ spec.dataValues ∧
      rowGet mr rf.name = some (ScalarValue.num n) := by
  rcases getVegaLiteSpec_rows_ok hspec with ⟨rf2, cf, t, m, hrf2, hcf, hdt, hm, rfl⟩
  obtain rfl : rf = rf2 := Option.some.inj (hrf.symm.trans hrf2)
  obtain rfl : m = rs.map (rowMapped codes explore) := mapData_ok_eq hm
  dsimp only
  have hvalue : rowGet (rowMapped codes explore r) rf.name =
      some (ScalarValue.num n) := by
    rw [rowGet_rowMapped]
    simp [rowValue, hcell, cellValueOr, getDataValue]
  refine ⟨fun _ _ => rfl,
    rowMapped codes explore r, mapData_ok_rows hm r hr, ?_, hvalue⟩
  exact List.mem_filter.mpr ⟨List.mem_map_of_mem _ hr, by simp [hvalue]⟩

/-- C10 witness: region value 999 matches no feature id of `exWorld`,
yet the row survives with region value 999. -/
theorem C10_witness :
    (999 : Int) ∉ exWorld ∧
    getVegaLiteSpec exCodes exWorld exFmt exScale exSize exExplore
      (TopValue.rows exRowsNum) = Except.ok exSpecNum ∧
    getRegionField exExplore = some exCountry ∧
    [(exCountry, CellValue.num 999), (exValue, CellValue.num 1)] ∈ exRowsNum ∧
    lastCellNamed [(exCountry, CellValue.num 999), (exValue, CellValue.num 1)]
      "country" = some (exCountry, CellValue.num 999) ∧
    (∃ mr, mapRow exCodes exExplore
        [(exCountry, CellValue.num 999), (exValue, CellValue.num 1)] =
          Except.ok mr ∧
      mr ∈ exSpecNum.dataValues ∧
      rowGet mr "country" = some (ScalarValue.num 999)) := by
  have h1 : getVegaLiteSpec exCodes exWorld exFmt exScale exSize exExplore
      (TopValue.rows exRowsNum) = Except.ok exSpecNum := by rfl
  have h2 : getRegionField exExplore = some exCountry := by decide
  have h3 : [(exCountry, CellValue.num 999), (exValue, CellValue.num 1)] ∈
      exRowsNum := by decide
  have h4 : lastCellNamed
      [(exCountry, CellValue.num 999), (exValue, CellValue.num 1)]
      "country" = some (exCountry, CellValue.num 999) := by decide
  exact ⟨by decide, h1, h2, h3, h4,
    (C10_numeric_region_passthrough h1 h2 h3 h4).2⟩

end ShapeMap
